import Mathlib

/-!
# Verification of the Noise_XX handshake driver (`handshake.rs`)

This file gives a shallow embedding of
`ockam_identity/src/secure_channel/handshake/handshake.rs` and proves the
specification claims about it.

Embedding conventions:

* Bytes are `Nat` values below 256, byte strings are `List Nat`.
* `SHA-256` is implemented in full (the driver computes transcript hashes
  itself, via the `sha2` crate), so concrete digests such as the
  post-`initialize` transcript hash are proved exactly.
* The vault (`SecureChannelVault`) is an external collaborator whose
  implementation is not part of the embedded source.  It is modelled as an
  in-memory store of secrets addressed by numeric handles, with deterministic
  model primitives: the X25519 public key of a secret is the secret bytes
  themselves, Diffie-Hellman is the commutative pointwise byte sum (so that
  `DH(a, pub b) = DH(b, pub a)`, the only property of X25519 the handshake
  relies on), AES-256-GCM is the plaintext followed by a 16-byte SHA-256-based
  authentication tag over `(key, nonce, aad, plaintext)`, and HKDF-SHA256
  output `i` is `SHA-256(salt ++ ikm ++ info ++ [i])`.  The vault also keeps an
  observation `log` of the calls made to it (and of the two points where the
  driver stores a replacement handle into its state), used to state ordering
  properties.
* The driver's AEAD counter `n` is a Rust `u64`; it is modelled as `Nat` and
  its big-endian encoding reduces it modulo `2^64`, which coincides with
  `u64::to_be_bytes` for every value the source can reach.
* Rust `Result` is `Except HsError`; the `&mut self` methods become functions
  `HandshakeState → Vault → Except HsError α × HandshakeState × Vault`
  (the triple is abbreviated `Step α`).  An error outcome carries the state
  visible to the caller at that point, which reproduces the source's
  work-on-a-clone-then-assign pattern at the top level.
-/

/-! ## SHA-256 (byte strings as `List Nat`) -/

def M32 : Nat := 4294967296

def wadd (a b : Nat) : Nat := (a + b) % M32

def rotr32 (n x : Nat) : Nat :=
  Nat.lor (x >>> n) (((x % (2 ^ n)) <<< (32 - n)) % M32)

def shr32 (n x : Nat) : Nat := x >>> n

def not32 (x : Nat) : Nat := Nat.xor x (M32 - 1)

def chF (x y z : Nat) : Nat := Nat.xor (Nat.land x y) (Nat.land (not32 x) z)

def majF (x y z : Nat) : Nat :=
  Nat.xor (Nat.xor (Nat.land x y) (Nat.land x z)) (Nat.land y z)

def bsig0 (x : Nat) : Nat := Nat.xor (Nat.xor (rotr32 2 x) (rotr32 13 x)) (rotr32 22 x)

def bsig1 (x : Nat) : Nat := Nat.xor (Nat.xor (rotr32 6 x) (rotr32 11 x)) (rotr32 25 x)

def ssig0 (x : Nat) : Nat := Nat.xor (Nat.xor (rotr32 7 x) (rotr32 18 x)) (shr32 3 x)

def ssig1 (x : Nat) : Nat := Nat.xor (Nat.xor (rotr32 17 x) (rotr32 19 x)) (shr32 10 x)

def K64 : List Nat :=
  [1116352408, 1899447441, 3049323471, 3921009573, 961987163,
   1508970993, 2453635748, 2870763221, 3624381080, 310598401,
   607225278, 1426881987, 1925078388, 2162078206, 2614888103,
   3248222580, 3835390401, 4022224774, 264347078, 604807628,
   770255983, 1249150122, 1555081692, 1996064986, 2554220882,
   2821834349, 2952996808, 3210313671, 3336571891, 3584528711,
   113926993, 338241895, 666307205, 773529912, 1294757372,
   1396182291, 1695183700, 1986661051, 2177026350, 2456956037,
   2730485921, 2820302411, 3259730800, 3345764771, 3516065817,
   3600352804, 4094571909, 275423344, 430227734, 506948616,
   659060556, 883997877, 958139571, 1322822218, 1537002063,
   1747873779, 1955562222, 2024104815, 2227730452, 2361852424,
   2428436474, 2756734187, 3204031479, 3329325298]

def Hinit : List Nat :=
  [1779033703, 3144134277, 1013904242, 2773480762, 1359893119,
   2600822924, 528734635, 1541459225]

/-- Big-endian bytes of a 64-bit counter (`u64::to_be_bytes`). -/
def beU64 (n : Nat) : List Nat :=
  let m := n % 18446744073709551616
  [(m >>> 56) % 256, (m >>> 48) % 256, (m >>> 40) % 256, (m >>> 32) % 256,
   (m >>> 24) % 256, (m >>> 16) % 256, (m >>> 8) % 256, m % 256]

def padMessage (msg : List Nat) : List Nat :=
  let L := msg.length
  msg ++ (128 :: List.replicate ((119 - (L % 64)) % 64) 0) ++ beU64 (L * 8)

def bytesToWords : List Nat → List Nat
  | a :: b :: c :: d :: rest => (((a * 256 + b) * 256 + c) * 256 + d) :: bytesToWords rest
  | _ => []

def wordsToBytes : List Nat → List Nat
  | [] => []
  | w :: rest => (w >>> 24) % 256 :: (w >>> 16) % 256 :: (w >>> 8) % 256 :: w % 256 :: wordsToBytes rest

def scheduleStep (w : List Nat) : List Nat :=
  let L := w.length
  w ++ [wadd (wadd (ssig1 (w.getD (L - 2) 0)) (w.getD (L - 7) 0))
             (wadd (ssig0 (w.getD (L - 15) 0)) (w.getD (L - 16) 0))]

def schedule64 (w : List Nat) : List Nat :=
  (List.range 48).foldl (fun acc _ => scheduleStep acc) w

def round1 (st : List Nat) (k : Nat) (w : Nat) : List Nat :=
  match st with
  | [a, b, c, d, e, f, g, h] =>
    let t1 := wadd h (wadd (bsig1 e) (wadd (chF e f g) (wadd k w)))
    let t2 := wadd (bsig0 a) (majF a b c)
    [wadd t1 t2, a, b, c, wadd d t1, e, f, g]
  | other => other

def compressBlock (hs : List Nat) (block : List Nat) : List Nat :=
  let w := schedule64 block
  let final := (List.zip K64 w).foldl (fun st p => round1 st p.1 p.2) hs
  List.zipWith wadd hs final

def sha256Blocks (hs : List Nat) (ws : List Nat) : List Nat :=
  (List.range (ws.length / 16)).foldl
    (fun acc i => compressBlock acc ((ws.drop (16 * i)).take 16)) hs

/-- SHA-256 of a byte string (`HandshakeState::sha256`). -/
def sha256 (msg : List Nat) : List Nat :=
  wordsToBytes (sha256Blocks Hinit (bytesToWords (padMessage msg)))

/-! ## Errors and secret attributes -/

/-- The slots of `HandshakeState` whose accessors can fail
(`"key id X should have been set"`). -/
inductive Slot
  | s | e | k | ck | re | rs
deriving DecidableEq, Repr

/-- The flat error taxonomy of the driver.  `MessageLenMismatch` and
`InternalVaultError` are `XXError` variants; `InvalidState` is the
`ockam_core::Error` raised by the state accessors; `VaultMissingSecret` and
`AeadAuthFailure` are the model vault's failures (propagated verbatim by the
driver); `EngineTerminated` is produced only by the spec-modelled outer
engine, never by the driver itself. -/
inductive HsError
  | MessageLenMismatch
  | InternalVaultError
  | InvalidState (slot : Slot)
  | VaultMissingSecret
  | AeadAuthFailure
  | EngineTerminated
deriving DecidableEq, Repr

inductive SecretAttributes
  | X25519
  | Aes256
  | Buffer (size : Nat)
deriving DecidableEq, Repr

def SHA256_SIZE_USIZE : Nat := 32

def AES_GCM_TAGSIZE_USIZE : Nat := 16

def X25519_PUBLIC_LENGTH_USIZE : Nat := 32

def AES256_SECRET_LENGTH_USIZE : Nat := 32

/-! ## The model vault

An observation log entry: one vault call (or, for `storeCkEv`/`storeKEv`, one
of the two points in `Handshake::hkdf` where the driver stores a replacement
handle into its state).  Used only to state ordering/trace properties. -/

inductive VEvent
  | importEv (id : Nat)
  | getPubEv (id : Nat)
  | dhEv (id : Nat)
  | hkdfEv (out : List Nat)
  | aeadEncEv (nonce : List Nat)
  | aeadDecEv (nonce : List Nat)
  | delEv (id : Nat)
  | storeCkEv (id : Nat)
  | storeKEv (id : Nat)
deriving DecidableEq, Repr

structure StoredSecret where
  attrs : SecretAttributes
  secret : List Nat
deriving DecidableEq, Repr

/-- Model of the external `SecureChannelVault` collaborator: an in-memory
store of secrets addressed by numeric handles, plus the observation log. -/
structure Vault where
  store : List (Nat × StoredSecret)
  nextId : Nat
  log : List VEvent
deriving DecidableEq, Repr

def Vault.logEv (v : Vault) (ev : VEvent) : Vault :=
  { v with log := v.log ++ [ev] }

def Vault.find (v : Vault) (i : Nat) : Option StoredSecret :=
  (v.store.find? (fun p => p.1 == i)).map (fun p => p.2)

def Vault.import_ephemeral_secret (v : Vault) (secret : List Nat)
    (attrs : SecretAttributes) : Nat × Vault :=
  (v.nextId,
   { store := (v.nextId, ⟨attrs, secret⟩) :: v.store,
     nextId := v.nextId + 1,
     log := v.log ++ [.importEv v.nextId] })

/-- Model X25519: the public point of a secret is the secret bytes. -/
def modelPublicKey (priv : List Nat) : List Nat := priv

def Vault.get_public_key (v : Vault) (i : Nat) : Except HsError (List Nat × Vault) :=
  match v.find i with
  | some sec => .ok (modelPublicKey sec.secret, v.logEv (.getPubEv i))
  | none => .error .VaultMissingSecret

/-- Model Diffie-Hellman: commutative pointwise byte sum, so that
`modelDh a (modelPublicKey b) = modelDh b (modelPublicKey a)`. -/
def modelDh (priv pub : List Nat) : List Nat :=
  List.zipWith (fun a b => (a + b) % 256) priv pub

def Vault.ec_diffie_hellman (v : Vault) (i : Nat) (publicKey : List Nat) :
    Except HsError (Nat × Vault) :=
  match v.find i with
  | some sec =>
    let r := v.import_ephemeral_secret (modelDh sec.secret publicKey) (.Buffer 32)
    .ok (r.1, r.2.logEv (.dhEv r.1))
  | none => .error .VaultMissingSecret

/-- Model HKDF-SHA256: output `i` (starting at 1) is
`SHA-256(salt ++ ikm ++ info ++ [i])`. -/
def modelHkdfOutput (salt ikm info : List Nat) (i : Nat) : List Nat :=
  sha256 (salt ++ ikm ++ info ++ [i])

def Vault.hkdf_sha256 (v : Vault) (saltId : Nat) (info : List Nat) (ikm : Option Nat)
    (outputAttributes : List SecretAttributes) : Except HsError (List Nat × Vault) :=
  match v.find saltId with
  | none => .error .VaultMissingSecret
  | some salt =>
    match (match ikm with
           | none => Except.ok []
           | some i =>
             match v.find i with
             | some sec => Except.ok sec.secret
             | none => Except.error HsError.VaultMissingSecret) with
    | .error err => .error err
    | .ok ikmBytes =>
      let r := outputAttributes.foldl
          (fun (acc : List Nat × Vault × Nat) attrs =>
            let ri := acc.2.1.import_ephemeral_secret
                (modelHkdfOutput salt.secret ikmBytes info acc.2.2) attrs
            (acc.1 ++ [ri.1], ri.2, acc.2.2 + 1))
          ([], v, 1)
      .ok (r.1, r.2.1.logEv (.hkdfEv r.1))

/-- Model AES-256-GCM tag: 16 bytes of SHA-256 over key, nonce, aad, body. -/
def mkTag (key nonce aad p : List Nat) : List Nat :=
  List.take 16 (sha256 (key ++ nonce ++ aad ++ p))

def Vault.aead_aes_gcm_encrypt (v : Vault) (k : Nat) (plaintext nonce aad : List Nat) :
    Except HsError (List Nat × Vault) :=
  match v.find k with
  | some sec =>
    .ok (plaintext ++ mkTag sec.secret nonce aad plaintext, v.logEv (.aeadEncEv nonce))
  | none => .error .VaultMissingSecret

def Vault.aead_aes_gcm_decrypt (v : Vault) (k : Nat) (c nonce aad : List Nat) :
    Except HsError (List Nat × Vault) :=
  match v.find k with
  | none => .error .VaultMissingSecret
  | some sec =>
    if c.length < 16 then .error .AeadAuthFailure
    else
      let body := c.take (c.length - 16)
      let tag := c.drop (c.length - 16)
      if tag == mkTag sec.secret nonce aad body then
        .ok (body, v.logEv (.aeadDecEv nonce))
      else .error .AeadAuthFailure

def Vault.delete_secret (v : Vault) (i : Nat) : Vault :=
  { store := v.store.filter (fun p => p.1 != i),
    nextId := v.nextId,
    log := v.log ++ [.delEv i] }

/-! ## Handshake state (`HandshakeState`) -/

structure HandshakeKeys where
  encryption_key : Nat
  decryption_key : Nat
deriving DecidableEq, Repr

inductive Status
  | Initial
  | Ready (keys : HandshakeKeys)
deriving DecidableEq, Repr

/-- `HandshakeState`: the protocol variables.  Secret-carrying fields hold
vault handles (`Nat`); `re`/`rs` hold raw public key bytes (the constant
X25519 tag of the Rust `PublicKey` is dropped); `h` is the in-memory
transcript hash. -/
structure HandshakeState where
  s : Option Nat
  e : Option Nat
  k : Option Nat
  re : Option (List Nat)
  rs : Option (List Nat)
  n : Nat
  h : List Nat
  ck : Option Nat
  status : Status
deriving DecidableEq, Repr

/-- `HandshakeState::new`. -/
def HandshakeState.new (s e : Nat) : HandshakeState :=
  { s := some s, e := some e, k := none, re := none, rs := none,
    n := 0, h := List.replicate SHA256_SIZE_USIZE 0, ck := none, status := .Initial }

/-- `h = SHA256(h || data)`. -/
def HandshakeState.mix_hash (st : HandshakeState) (data : List Nat) : HandshakeState :=
  { st with h := sha256 (st.h ++ data) }

def HandshakeState.getS (st : HandshakeState) : Except HsError Nat :=
  match st.s with
  | some i => .ok i
  | none => .error (.InvalidState .s)

def HandshakeState.getE (st : HandshakeState) : Except HsError Nat :=
  match st.e with
  | some i => .ok i
  | none => .error (.InvalidState .e)

def HandshakeState.getK (st : HandshakeState) : Except HsError Nat :=
  match st.k with
  | some i => .ok i
  | none => .error (.InvalidState .k)

def HandshakeState.getCk (st : HandshakeState) : Except HsError Nat :=
  match st.ck with
  | some i => .ok i
  | none => .error (.InvalidState .ck)

def HandshakeState.getRe (st : HandshakeState) : Except HsError (List Nat) :=
  match st.re with
  | some p => .ok p
  | none => .error (.InvalidState .re)

def HandshakeState.getRs (st : HandshakeState) : Except HsError (List Nat) :=
  match st.rs with
  | some p => .ok p
  | none => .error (.InvalidState .rs)

def HandshakeState.take_e (st : HandshakeState) : Except HsError (Nat × HandshakeState) :=
  match st.e with
  | some i => .ok (i, { st with e := none })
  | none => .error (.InvalidState .e)

def HandshakeState.take_k (st : HandshakeState) : Except HsError (Nat × HandshakeState) :=
  match st.k with
  | some i => .ok (i, { st with k := none })
  | none => .error (.InvalidState .k)

def HandshakeState.take_ck (st : HandshakeState) : Except HsError (Nat × HandshakeState) :=
  match st.ck with
  | some i => .ok (i, { st with ck := none })
  | none => .error (.InvalidState .ck)

/-! ## Step plumbing

A driver step yields an `Except` result together with the handshake state and
vault visible when it finishes (also on the error path, where the caller's
clone-discard makes the top level fall back to the original state). -/

abbrev Step (α : Type) := Except HsError α × HandshakeState × Vault

def step {α β : Type} (r : Step α) (f : α → HandshakeState → Vault → Step β) : Step β :=
  match r with
  | (.ok a, st, v) => f a st v
  | (.error err, st, v) => (.error err, st, v)

def liftE {α : Type} (r : Except HsError α) (st : HandshakeState) (v : Vault) : Step α :=
  match r with
  | .ok a => (.ok a, st, v)
  | .error err => (.error err, st, v)

def liftV {α : Type} (r : Except HsError (α × Vault)) (st : HandshakeState) (v : Vault) : Step α :=
  match r with
  | .ok (a, v') => (.ok a, st, v')
  | .error err => (.error err, st, v)

/-- The work-on-a-clone-then-assign pattern of every `encode_*`/`decode_*`
method: the body mutates a clone; `self.state` is assigned only on success, so
an error leaves the original state in place (the shared vault keeps whatever
calls already happened). -/
def withClone {α : Type} (st0 : HandshakeState) (body : Step α) : Step α :=
  match body with
  | (.ok a, st, v) => (.ok a, st, v)
  | (.error err, _, v) => (.error err, st0, v)

/-! ## Static driver functions -/

/-- `Handshake::protocol_name`: `b"Noise_XX_25519_AESGCM_SHA256\0\0\0\0"`. -/
def protocol_name : List Nat :=
  [78, 111, 105, 115, 101, 95, 88, 88, 95, 50, 53, 53, 49, 57, 95,
   65, 69, 83, 71, 67, 77, 95, 83, 72, 65, 50, 53, 54, 0, 0, 0, 0]

def ck_attributes : SecretAttributes := .Buffer SHA256_SIZE_USIZE

def k_attributes : SecretAttributes := .Aes256

def key_size : Nat := X25519_PUBLIC_LENGTH_USIZE

def encrypted_key_size : Nat := key_size + AES_GCM_TAGSIZE_USIZE

def read_start (message : List Nat) (length : Nat) : Except HsError (List Nat) :=
  if message.length < length then .error .MessageLenMismatch
  else .ok (message.take length)

def read_end (message : List Nat) (drop_length : Nat) : Except HsError (List Nat) :=
  if message.length < drop_length then .error .MessageLenMismatch
  else .ok (message.drop drop_length)

def read_middle (message : List Nat) (drop_length length : Nat) : Except HsError (List Nat) :=
  if message.length < drop_length + length then .error .MessageLenMismatch
  else .ok ((message.drop drop_length).take length)

def read_key (message : List Nat) : Except HsError (List Nat) :=
  read_start message key_size

def read_message1_payload (message : List Nat) : Except HsError (List Nat) :=
  read_end message key_size

def read_message2_encrypted_key (message : List Nat) : Except HsError (List Nat) :=
  read_middle message key_size encrypted_key_size

def read_message2_payload (message : List Nat) : Except HsError (List Nat) :=
  read_end message (key_size + encrypted_key_size)

def read_message3_encrypted_key (message : List Nat) : Except HsError (List Nat) :=
  read_start message encrypted_key_size

def read_message3_payload (message : List Nat) : Except HsError (List Nat) :=
  read_end message encrypted_key_size

/-! ## Driver internals -/

def import_k_secret (v : Vault) (content : List Nat) : Nat × Vault :=
  v.import_ephemeral_secret content k_attributes

def import_ck_secret (v : Vault) (content : List Nat) : Nat × Vault :=
  v.import_ephemeral_secret content ck_attributes

/-- `Handshake::encrypt_and_hash`: nonce is 4 zero bytes then `be_u64(n)`;
AEAD-encrypt with AAD `h`; `mix_hash` the ciphertext; `n += 1`. -/
def encrypt_and_hash (p : List Nat) (st0 : HandshakeState) (v0 : Vault) : Step (List Nat) :=
  let nonce := List.replicate 4 0 ++ beU64 st0.n
  step (liftE st0.getK st0 v0) fun kId st v =>
  step (liftV (v.aead_aes_gcm_encrypt kId p nonce st.h) st v) fun result st v =>
  (.ok result, { st.mix_hash result with n := st.n + 1 }, v)

/-- `Handshake::hash_and_decrypt`: same nonce; AEAD-decrypt with AAD `h`;
`mix_hash` the ciphertext; `n += 1`. -/
def hash_and_decrypt (c : List Nat) (st0 : HandshakeState) (v0 : Vault) : Step (List Nat) :=
  let nonce := List.replicate 4 0 ++ beU64 st0.n
  step (liftE st0.getK st0 v0) fun kId st v =>
  step (liftV (v.aead_aes_gcm_decrypt kId c nonce st.h) st v) fun result st v =>
  (.ok result, { st.mix_hash c with n := st.n + 1 }, v)

/-- The tail of `Handshake::hkdf` after the vault call and the deletion of the
DH secret: destructure the two output handles (else `InternalVaultError`),
then for ck and k in turn: take the old handle, store the new one, delete the
old one from the vault; finally reset `n` to 0. -/
def hkdfFinish (hkdf_output : List Nat) (st : HandshakeState) (v : Vault) : Step Unit :=
  match hkdf_output with
  | [new_ck, new_k] =>
    match st.take_ck with
    | .error err => (.error err, st, v)
    | .ok (old_ck, st1) =>
      let st2 := { st1 with ck := some new_ck }
      let v1 := (v.logEv (.storeCkEv new_ck)).delete_secret old_ck
      match st2.take_k with
      | .error err => (.error err, st2, v1)
      | .ok (old_k, st3) =>
        let st4 := { st3 with k := some new_k }
        let v2 := (v1.logEv (.storeKEv new_k)).delete_secret old_k
        (.ok (), { st4 with n := 0 }, v2)
  | _ => (.error .InternalVaultError, st, v)

/-- `Handshake::hkdf`: `ck, k = HKDF(ck, dh, 2)`; the DH secret is deleted
right after the vault call. -/
def hkdfStep (dh : Nat) (st0 : HandshakeState) (v0 : Vault) : Step Unit :=
  step (liftE st0.getCk st0 v0) fun ckId st v =>
  step (liftV (v.hkdf_sha256 ckId [] (some dh) [ck_attributes, k_attributes]) st v)
    fun hkdf_output st v =>
  hkdfFinish hkdf_output st (v.delete_secret dh)

/-- The tail of `Handshake::compute_final_keys` after the vault call:
destructure `[k1, k2]` (else `InternalVaultError`), then delete the taken ck
and k handles. -/
def computeFinalKeysFinish (hkdf_output : List Nat) (st : HandshakeState) (v : Vault) :
    Step (Nat × Nat) :=
  match hkdf_output with
  | [k1, k2] =>
    match st.take_ck with
    | .error err => (.error err, st, v)
    | .ok (old_ck, st1) =>
      let v1 := v.delete_secret old_ck
      match st1.take_k with
      | .error err => (.error err, st1, v1)
      | .ok (old_k, st2) => (.ok (k1, k2), st2, v1.delete_secret old_k)
  | _ => (.error .InternalVaultError, st, v)

/-- `Handshake::compute_final_keys`: `k1, k2 = HKDF(ck, zerolen, 2)` with no
IKM, both outputs AES-256 keys. -/
def compute_final_keys (st0 : HandshakeState) (v0 : Vault) : Step (Nat × Nat) :=
  step (liftE st0.getCk st0 v0) fun ckId st v =>
  step (liftV (v.hkdf_sha256 ckId [] none [k_attributes, k_attributes]) st v)
    fun hkdf_output st v =>
  computeFinalKeysFinish hkdf_output st v

/-! ## The driver's top-level operations -/

/-- `Handshake::initialize`: `h := protocol_name`; import a zero AES-256 key
as `k` and the protocol name as `ck`; `h := SHA256(h)`. -/
def initializeState (st0 : HandshakeState) (v0 : Vault) : Step Unit :=
  let st1 := { st0 with h := protocol_name }
  let rk := import_k_secret v0 (List.replicate AES256_SECRET_LENGTH_USIZE 0)
  let st2 := { st1 with k := some rk.1 }
  let rck := import_ck_secret rk.2 protocol_name
  let st3 := { st2 with ck := some rck.1 }
  (.ok (), { st3 with h := sha256 st3.h }, rck.2)

/-- `Handshake::encode_message1`: `e.pub ‖ payload`, mixing both into `h`. -/
def encode_message1 (payload : List Nat) (st0 : HandshakeState) (v0 : Vault) :
    Step (List Nat) :=
  withClone st0 (
    step (liftE st0.getE st0 v0) fun eId st v =>
    step (liftV (v.get_public_key eId) st v) fun e_pub st v =>
    let st := st.mix_hash e_pub
    let st := st.mix_hash payload
    (.ok (e_pub ++ payload), st, v))

/-- `Handshake::decode_message1`: first 32 bytes become `re`, the rest is the
payload, both mixed into `h`. -/
def decode_message1 (message : List Nat) (st0 : HandshakeState) (v0 : Vault) :
    Step (List Nat) :=
  withClone st0 (
    step (liftE (read_key message) st0 v0) fun key st v =>
    let st := st.mix_hash key
    let st := { st with re := some key }
    step (liftE (read_message1_payload message) st v) fun payload st v =>
    (.ok payload, st.mix_hash payload, v))

/-- `Handshake::encode_message2`:
`e.pub ‖ AEAD(s.pub) ‖ AEAD(payload)` with the two HKDF rotations between. -/
def encode_message2 (payload : List Nat) (st0 : HandshakeState) (v0 : Vault) :
    Step (List Nat) :=
  withClone st0 (
    step (liftE st0.getE st0 v0) fun eId st v =>
    step (liftV (v.get_public_key eId) st v) fun e_pub st v =>
    let st := st.mix_hash e_pub
    step (liftE st.getE st v) fun eId st v =>
    step (liftE st.getRe st v) fun rePub st v =>
    step (liftV (v.ec_diffie_hellman eId rePub) st v) fun dh st v =>
    step (hkdfStep dh st v) fun _ st v =>
    step (liftE st.getS st v) fun sId st v =>
    step (liftV (v.get_public_key sId) st v) fun s_pub st v =>
    step (encrypt_and_hash s_pub st v) fun c1 st v =>
    step (liftE st.getS st v) fun sId st v =>
    step (liftE st.getRe st v) fun rePub st v =>
    step (liftV (v.ec_diffie_hellman sId rePub) st v) fun dh st v =>
    step (hkdfStep dh st v) fun _ st v =>
    step (encrypt_and_hash payload st v) fun c2 st v =>
    (.ok (e_pub ++ c1 ++ c2), st, v))

/-- `Handshake::decode_message2`: inverse of `encode_message2`. -/
def decode_message2 (message : List Nat) (st0 : HandshakeState) (v0 : Vault) :
    Step (List Nat) :=
  withClone st0 (
    step (liftE (read_key message) st0 v0) fun re_pub st v =>
    let st := { st with re := some re_pub }
    let st := st.mix_hash re_pub
    step (liftE st.getE st v) fun eId st v =>
    step (liftE st.getRe st v) fun rePub st v =>
    step (liftV (v.ec_diffie_hellman eId rePub) st v) fun dh st v =>
    step (hkdfStep dh st v) fun _ st v =>
    step (liftE (read_message2_encrypted_key message) st v) fun rs_c st v =>
    step (hash_and_decrypt rs_c st v) fun rsBytes st v =>
    let st := { st with rs := some rsBytes }
    step (liftE st.getE st v) fun eId st v =>
    step (liftE st.getRs st v) fun rsPub st v =>
    step (liftV (v.ec_diffie_hellman eId rsPub) st v) fun dh st v =>
    step (hkdfStep dh st v) fun _ st v =>
    step (liftE (read_message2_payload message) st v) fun c st v =>
    hash_and_decrypt c st v)

/-- `Handshake::encode_message3`: `AEAD(s.pub) ‖ AEAD(payload)` with an
interleaved HKDF rotation. -/
def encode_message3 (payload : List Nat) (st0 : HandshakeState) (v0 : Vault) :
    Step (List Nat) :=
  withClone st0 (
    step (liftE st0.getS st0 v0) fun sId st v =>
    step (liftV (v.get_public_key sId) st v) fun s_pub st v =>
    step (encrypt_and_hash s_pub st v) fun c1 st v =>
    step (liftE st.getS st v) fun sId st v =>
    step (liftE st.getRe st v) fun rePub st v =>
    step (liftV (v.ec_diffie_hellman sId rePub) st v) fun dh st v =>
    step (hkdfStep dh st v) fun _ st v =>
    step (encrypt_and_hash payload st v) fun c2 st v =>
    (.ok (c1 ++ c2), st, v))

/-- `Handshake::decode_message3`: inverse of `encode_message3`. -/
def decode_message3 (message : List Nat) (st0 : HandshakeState) (v0 : Vault) :
    Step (List Nat) :=
  withClone st0 (
    step (liftE (read_message3_encrypted_key message) st0 v0) fun c1 st v =>
    step (hash_and_decrypt c1 st v) fun rsBytes st v =>
    let st := { st with rs := some rsBytes }
    step (liftE st.getE st v) fun eId st v =>
    step (liftE st.getRs st v) fun rsPub st v =>
    step (liftV (v.ec_diffie_hellman eId rsPub) st v) fun dh st v =>
    step (hkdfStep dh st v) fun _ st v =>
    step (liftE (read_message3_payload message) st v) fun c2 st v =>
    hash_and_decrypt c2 st v)

inductive Role
  | Initiator
  | Responder
deriving DecidableEq, Repr

def Role.is_initiator : Role → Bool
  | .Initiator => true
  | .Responder => false

/-- `Handshake::set_final_state`: derive `(k1, k2)`; the initiator takes
`(encryption, decryption) = (k2, k1)`, the responder `(k1, k2)`; set
`status := Ready`; assign the state; then delete the ephemeral key (mutating
the already-assigned state, as the source does). -/
def set_final_state (role : Role) (st0 : HandshakeState) (v0 : Vault) : Step Unit :=
  match compute_final_keys st0 v0 with
  | (.error err, _, v) => (.error err, st0, v)
  | (.ok (k1, k2), st1, v1) =>
    let keys := if role.is_initiator then HandshakeKeys.mk k2 k1 else HandshakeKeys.mk k1 k2
    let st2 := { st1 with status := .Ready keys }
    match st2.take_e with
    | .error err => (.error err, st2, v1)
    | .ok (eId, st3) => (.ok (), st3, v1.delete_secret eId)

/-- `Handshake::get_handshake_keys`. -/
def get_handshake_keys (st : HandshakeState) : Option HandshakeKeys :=
  match st.status with
  | .Ready keys => some keys
  | _ => none

/-! ## A matched pair of engines (the repository's own test key material)

Key material of the repository's `test_full_handshake` tests: both engines
share one vault, into which the four X25519 secrets are imported first. -/

def iStaticBytes : List Nat := List.range' 0 32

def iEphBytes : List Nat := List.range' 32 32

def rStaticBytes : List Nat := List.range' 1 32

def rEphBytes : List Nat := List.range' 65 32

def emptyVault : Vault := { store := [], nextId := 0, log := [] }

/-- The shared vault holding the four imported X25519 secrets
(handles 0 = initiator static, 1 = initiator ephemeral,
2 = responder static, 3 = responder ephemeral). -/
def v0 : Vault :=
  ((((emptyVault.import_ephemeral_secret iStaticBytes .X25519).2.import_ephemeral_secret
      iEphBytes .X25519).2.import_ephemeral_secret
      rStaticBytes .X25519).2.import_ephemeral_secret
      rEphBytes .X25519).2

def stI0 : HandshakeState := HandshakeState.new 0 1

def stR0 : HandshakeState := HandshakeState.new 2 3

def postInitI : Step Unit := initializeState stI0 v0

def stI1 : HandshakeState := postInitI.2.1

def v1 : Vault := postInitI.2.2

def postInitR : Step Unit := initializeState stR0 v1

def stR1 : HandshakeState := postInitR.2.1

def v2 : Vault := postInitR.2.2

/-- A complete matched exchange: both engines initialized over the shared
vault, the three messages produced and consumed in order; returns the three
payloads as decoded by the receiving engine. -/
def runHandshake (p1 p2 p3 : List Nat) : Except HsError (List Nat × List Nat × List Nat) :=
  match encode_message1 p1 stI1 v2 with
  | (.error err, _, _) => .error err
  | (.ok m1, stI2, v3) =>
    match decode_message1 m1 stR1 v3 with
    | (.error err, _, _) => .error err
    | (.ok q1, stR2, v4) =>
      match encode_message2 p2 stR2 v4 with
      | (.error err, _, _) => .error err
      | (.ok m2, stR3, v5) =>
        match decode_message2 m2 stI2 v5 with
        | (.error err, _, _) => .error err
        | (.ok q2, stI3, v6) =>
          match encode_message3 p3 stI3 v6 with
          | (.error err, _, _) => .error err
          | (.ok m3, _, v7) =>
            match decode_message3 m3 stR3 v7 with
            | (.error err, _, _) => .error err
            | (.ok q3, _, _) => .ok (q1, q2, q3)

/-! ## Helper lemmas: lengths of digests and tags -/

theorem round1_length (st : List Nat) (k w : Nat) : (round1 st k w).length = st.length := by
  unfold round1
  split <;> simp

theorem foldl_round1_length (l : List (Nat × Nat)) (st : List Nat) :
    (l.foldl (fun s p => round1 s p.1 p.2) st).length = st.length := by
  induction l generalizing st with
  | nil => rfl
  | cons p l ih => rw [List.foldl_cons, ih, round1_length]

theorem compressBlock_length (hs block : List Nat) :
    (compressBlock hs block).length = hs.length := by
  unfold compressBlock
  rw [List.length_zipWith, foldl_round1_length, Nat.min_self]

theorem foldl_compress_length (l : List Nat) (f : Nat → List Nat) (st : List Nat) :
    (l.foldl (fun acc i => compressBlock acc (f i)) st).length = st.length := by
  induction l generalizing st with
  | nil => rfl
  | cons i l ih => rw [List.foldl_cons, ih, compressBlock_length]

theorem sha256Blocks_length (hs ws : List Nat) : (sha256Blocks hs ws).length = hs.length := by
  unfold sha256Blocks
  exact foldl_compress_length _ _ _

theorem wordsToBytes_length (ws : List Nat) : (wordsToBytes ws).length = 4 * ws.length := by
  induction ws with
  | nil => rfl
  | cons w rest ih => simp [wordsToBytes, ih]; omega

@[simp]
theorem sha256_length (msg : List Nat) : (sha256 msg).length = 32 := by
  unfold sha256
  rw [wordsToBytes_length, sha256Blocks_length]
  rfl

@[simp]
theorem mkTag_length (key nonce aad p : List Nat) : (mkTag key nonce aad p).length = 16 := by
  unfold mkTag
  rw [List.length_take, sha256_length]
  omega

/-- Decrypting a well-formed model ciphertext (body plus matching tag) with
the stored key succeeds and returns the body. -/
theorem aead_decrypt_append_tag (v : Vault) (kId : Nat) (sec : StoredSecret)
    (p nonce aad : List Nat) (hfind : v.find kId = some sec) :
    v.aead_aes_gcm_decrypt kId (p ++ mkTag sec.secret nonce aad p) nonce aad =
      .ok (p, v.logEv (.aeadDecEv nonce)) := by
  unfold Vault.aead_aes_gcm_decrypt
  rw [hfind]
  dsimp only
  have hlen : (p ++ mkTag sec.secret nonce aad p).length = p.length + 16 := by
    simp [List.length_append]
  rw [if_neg (by omega)]
  have hsub : (p ++ mkTag sec.secret nonce aad p).length - 16 = p.length := by omega
  rw [hsub, List.take_left, List.drop_left]
  simp

/-! ## Symbolic trace of the matched run

The key material is concrete (the repository's own test vectors) while the
three payloads stay universally quantified; every definition below names one
intermediate value of the run. -/

def zeros32 : List Nat := List.replicate 32 0

def nonce0x : List Nat := List.replicate 4 0 ++ beU64 0

def nonce1x : List Nat := List.replicate 4 0 ++ beU64 1

def dh1x : List Nat := modelDh rEphBytes iEphBytes

def dh2x : List Nat := modelDh rStaticBytes iEphBytes

def dh3x : List Nat := modelDh iStaticBytes rEphBytes

def ck1x : List Nat := modelHkdfOutput protocol_name dh1x [] 1

def kb1x : List Nat := modelHkdfOutput protocol_name dh1x [] 2

def ck2x : List Nat := modelHkdfOutput ck1x dh2x [] 1

def kb2x : List Nat := modelHkdfOutput ck1x dh2x [] 2

def ck3x : List Nat := modelHkdfOutput ck2x dh3x [] 1

def kb3x : List Nat := modelHkdfOutput ck2x dh3x [] 2

def hsh0 : List Nat := sha256 protocol_name

def hsh1 : List Nat := sha256 (hsh0 ++ iEphBytes)

def hsh2 (p1 : List Nat) : List Nat := sha256 (hsh1 ++ p1)

def hsh3 (p1 : List Nat) : List Nat := sha256 (hsh2 p1 ++ rEphBytes)

def c1x (p1 : List Nat) : List Nat :=
  rStaticBytes ++ mkTag kb1x nonce0x (hsh3 p1) rStaticBytes

def hsh4 (p1 : List Nat) : List Nat := sha256 (hsh3 p1 ++ c1x p1)

def c2x (p1 p2 : List Nat) : List Nat := p2 ++ mkTag kb2x nonce0x (hsh4 p1) p2

def hsh5 (p1 p2 : List Nat) : List Nat := sha256 (hsh4 p1 ++ c2x p1 p2)

def msg2x (p1 p2 : List Nat) : List Nat := rEphBytes ++ (c1x p1 ++ c2x p1 p2)

def c3x (p1 p2 : List Nat) : List Nat :=
  iStaticBytes ++ mkTag kb2x nonce1x (hsh5 p1 p2) iStaticBytes

def hsh6 (p1 p2 : List Nat) : List Nat := sha256 (hsh5 p1 p2 ++ c3x p1 p2)

def c4x (p1 p2 p3 : List Nat) : List Nat := p3 ++ mkTag kb3x nonce0x (hsh6 p1 p2) p3

def msg3x (p1 p2 p3 : List Nat) : List Nat := c3x p1 p2 ++ c4x p1 p2 p3

def hsh7 (p1 p2 p3 : List Nat) : List Nat := sha256 (hsh6 p1 p2 ++ c4x p1 p2 p3)

def stI1x : HandshakeState := ⟨some 0, some 1, some 4, none, none, 0, hsh0, some 5, .Initial⟩

def stR1x : HandshakeState := ⟨some 2, some 3, some 6, none, none, 0, hsh0, some 7, .Initial⟩

def stI2x (p1 : List Nat) : HandshakeState :=
  ⟨some 0, some 1, some 4, none, none, 0, hsh2 p1, some 5, .Initial⟩

def stR2x (p1 : List Nat) : HandshakeState :=
  ⟨some 2, some 3, some 6, some iEphBytes, none, 0, hsh2 p1, some 7, .Initial⟩

def stR3x (p1 p2 : List Nat) : HandshakeState :=
  ⟨some 2, some 3, some 13, some iEphBytes, none, 1, hsh5 p1 p2, some 12, .Initial⟩

def stI3x (p1 p2 : List Nat) : HandshakeState :=
  ⟨some 0, some 1, some 19, some rEphBytes, some rStaticBytes, 1, hsh5 p1 p2, some 18, .Initial⟩

def stI4x (p1 p2 p3 : List Nat) : HandshakeState :=
  ⟨some 0, some 1, some 22, some rEphBytes, some rStaticBytes, 1, hsh7 p1 p2 p3, some 21, .Initial⟩

def stR4x (p1 p2 p3 : List Nat) : HandshakeState :=
  ⟨some 2, some 3, some 25, some iEphBytes, some iStaticBytes, 1, hsh7 p1 p2 p3, some 24, .Initial⟩

def store2x : List (Nat × StoredSecret) :=
  [(7, ⟨.Buffer 32, protocol_name⟩), (6, ⟨.Aes256, zeros32⟩),
   (5, ⟨.Buffer 32, protocol_name⟩), (4, ⟨.Aes256, zeros32⟩),
   (3, ⟨.X25519, rEphBytes⟩), (2, ⟨.X25519, rStaticBytes⟩),
   (1, ⟨.X25519, iEphBytes⟩), (0, ⟨.X25519, iStaticBytes⟩)]

def store5x : List (Nat × StoredSecret) :=
  [(13, ⟨.Aes256, kb2x⟩), (12, ⟨.Buffer 32, ck2x⟩),
   (5, ⟨.Buffer 32, protocol_name⟩), (4, ⟨.Aes256, zeros32⟩),
   (3, ⟨.X25519, rEphBytes⟩), (2, ⟨.X25519, rStaticBytes⟩),
   (1, ⟨.X25519, iEphBytes⟩), (0, ⟨.X25519, iStaticBytes⟩)]

def store6x : List (Nat × StoredSecret) :=
  [(19, ⟨.Aes256, kb2x⟩), (18, ⟨.Buffer 32, ck2x⟩),
   (13, ⟨.Aes256, kb2x⟩), (12, ⟨.Buffer 32, ck2x⟩),
   (3, ⟨.X25519, rEphBytes⟩), (2, ⟨.X25519, rStaticBytes⟩),
   (1, ⟨.X25519, iEphBytes⟩), (0, ⟨.X25519, iStaticBytes⟩)]

def store7x : List (Nat × StoredSecret) :=
  [(22, ⟨.Aes256, kb3x⟩), (21, ⟨.Buffer 32, ck3x⟩),
   (13, ⟨.Aes256, kb2x⟩), (12, ⟨.Buffer 32, ck2x⟩),
   (3, ⟨.X25519, rEphBytes⟩), (2, ⟨.X25519, rStaticBytes⟩),
   (1, ⟨.X25519, iEphBytes⟩), (0, ⟨.X25519, iStaticBytes⟩)]

def store8x : List (Nat × StoredSecret) :=
  [(25, ⟨.Aes256, kb3x⟩), (24, ⟨.Buffer 32, ck3x⟩),
   (22, ⟨.Aes256, kb3x⟩), (21, ⟨.Buffer 32, ck3x⟩),
   (3, ⟨.X25519, rEphBytes⟩), (2, ⟨.X25519, rStaticBytes⟩),
   (1, ⟨.X25519, iEphBytes⟩), (0, ⟨.X25519, iStaticBytes⟩)]

def log2x : List VEvent :=
  [.importEv 0, .importEv 1, .importEv 2, .importEv 3,
   .importEv 4, .importEv 5, .importEv 6, .importEv 7]

theorem stI1_eq : stI1 = stI1x := by rfl

theorem stR1_eq : stR1 = stR1x := by rfl

theorem v2_eq : v2 = ⟨store2x, 8, log2x⟩ := by rfl

/-! ## Stage lemmas for the matched run -/

theorem enc1_eq (p1 : List Nat) (L : List VEvent) :
    encode_message1 p1 stI1x ⟨store2x, 8, L⟩ =
      (.ok (iEphBytes ++ p1), stI2x p1, ⟨store2x, 8, L ++ [.getPubEv 1]⟩) := by
  simp [encode_message1, withClone, step, liftE, liftV, HandshakeState.getE, stI1x, stI2x,
        Vault.get_public_key, Vault.find, Vault.logEv, modelPublicKey, store2x,
        HandshakeState.mix_hash, hsh2, hsh1, List.find?]

theorem dec1_eq (p1 : List Nat) (V : Vault) :
    decode_message1 (iEphBytes ++ p1) stR1x V = (.ok p1, stR2x p1, V) := by
  have hl : iEphBytes.length = 32 := by rfl
  simp [decode_message1, withClone, step, liftE, liftV, read_key, read_start,
        read_message1_payload, read_end, key_size, X25519_PUBLIC_LENGTH_USIZE,
        stR1x, stR2x, HandshakeState.mix_hash, hsh2, hsh1, hl,
        List.take_left' hl, List.drop_left' hl, List.length_append]

def enc2evx : List VEvent :=
  [.getPubEv 3, .importEv 8, .dhEv 8, .importEv 9, .importEv 10, .hkdfEv [9, 10],
   .delEv 8, .storeCkEv 9, .delEv 7, .storeKEv 10, .delEv 6, .getPubEv 2,
   .aeadEncEv nonce0x, .importEv 11, .dhEv 11, .importEv 12, .importEv 13,
   .hkdfEv [12, 13], .delEv 11, .storeCkEv 12, .delEv 9, .storeKEv 13, .delEv 10,
   .aeadEncEv nonce0x]

theorem enc2_eq (p1 p2 : List Nat) (L : List VEvent) :
    encode_message2 p2 (stR2x p1) ⟨store2x, 8, L⟩ =
      (.ok (msg2x p1 p2), stR3x p1 p2, ⟨store5x, 14, L ++ enc2evx⟩) := by
  simp [encode_message2, withClone, step, liftE, liftV, HandshakeState.getE,
        HandshakeState.getRe, HandshakeState.getS, HandshakeState.getK, HandshakeState.getCk,
        HandshakeState.take_ck, HandshakeState.take_k, HandshakeState.mix_hash,
        Vault.get_public_key, Vault.ec_diffie_hellman, Vault.import_ephemeral_secret,
        Vault.hkdf_sha256, Vault.logEv, Vault.delete_secret, Vault.find,
        Vault.aead_aes_gcm_encrypt, List.find?, List.filter, modelPublicKey,
        hkdfStep, hkdfFinish, encrypt_and_hash,
        ck_attributes, k_attributes, SHA256_SIZE_USIZE, AES256_SECRET_LENGTH_USIZE,
        stR2x, stR3x, store2x, store5x, enc2evx, msg2x, c1x, c2x, hsh3, hsh4, hsh5,
        dh1x, dh2x, ck1x, kb1x, ck2x, kb2x, nonce0x, zeros32,
        List.append_assoc]

/-- The model Diffie-Hellman is commutative on the concrete key material:
what the initiator computes from its secret and the responder's public point
coincides with the responder's computation, message-1 pair. -/
theorem dh1_comm : modelDh iEphBytes rEphBytes = modelDh rEphBytes iEphBytes := by decide

theorem dh2_comm : modelDh iEphBytes rStaticBytes = modelDh rStaticBytes iEphBytes := by decide

theorem dh3_comm : modelDh rEphBytes iStaticBytes = modelDh iStaticBytes rEphBytes := by decide

/-- `aead_decrypt_append_tag` with the stored secret split into components,
in the shape the stage proofs rewrite with. -/
theorem aead_decrypt_found (v : Vault) (kId : Nat) (attrs : SecretAttributes)
    (kb p nonce aad : List Nat) (hfind : v.find kId = some ⟨attrs, kb⟩) :
    v.aead_aes_gcm_decrypt kId (p ++ mkTag kb nonce aad p) nonce aad =
      .ok (p, v.logEv (.aeadDecEv nonce)) :=
  aead_decrypt_append_tag v kId ⟨attrs, kb⟩ p nonce aad hfind

theorem c1x_length (p1 : List Nat) : (c1x p1).length = 48 := by
  simp [c1x, List.length_append, show rStaticBytes.length = 32 from rfl]

theorem c2x_length (p1 p2 : List Nat) : (c2x p1 p2).length = p2.length + 16 := by
  simp [c2x, List.length_append]

theorem msg2x_length (p1 p2 : List Nat) : (msg2x p1 p2).length = p2.length + 96 := by
  simp [msg2x, List.length_append, c1x_length, c2x_length,
        show rEphBytes.length = 32 from rfl]
  omega

theorem msg2x_read_key (p1 p2 : List Nat) : read_key (msg2x p1 p2) = .ok rEphBytes := by
  rw [read_key, read_start,
      if_neg (by rw [msg2x_length]; show ¬(p2.length + 96 < 32); omega)]
  rw [msg2x, List.take_left' (show rEphBytes.length = key_size from rfl)]

theorem msg2x_read_enc_key (p1 p2 : List Nat) :
    read_message2_encrypted_key (msg2x p1 p2) = .ok (c1x p1) := by
  rw [read_message2_encrypted_key, read_middle,
      if_neg (by rw [msg2x_length]; show ¬(p2.length + 96 < 32 + 48); omega)]
  rw [msg2x, List.drop_left' (show rEphBytes.length = key_size from rfl),
      List.take_left' (show (c1x p1).length = encrypted_key_size by
        rw [c1x_length]; rfl)]

theorem msg2x_read_payload (p1 p2 : List Nat) :
    read_message2_payload (msg2x p1 p2) = .ok (c2x p1 p2) := by
  rw [read_message2_payload, read_end,
      if_neg (by rw [msg2x_length]; show ¬(p2.length + 96 < 32 + 48); omega)]
  rw [msg2x, ← List.append_assoc,
      List.drop_left' (show (rEphBytes ++ c1x p1).length = key_size + encrypted_key_size by
        simp [List.length_append, c1x_length, show rEphBytes.length = 32 from rfl]; rfl)]

def dec2evx : List VEvent :=
  [.importEv 14, .dhEv 14, .importEv 15, .importEv 16, .hkdfEv [15, 16], .delEv 14,
   .storeCkEv 15, .delEv 5, .storeKEv 16, .delEv 4, .aeadDecEv nonce0x,
   .importEv 17, .dhEv 17, .importEv 18, .importEv 19, .hkdfEv [18, 19], .delEv 17,
   .storeCkEv 18, .delEv 15, .storeKEv 19, .delEv 16, .aeadDecEv nonce0x]

theorem dec2_eq (p1 p2 : List Nat) (L : List VEvent) :
    decode_message2 (msg2x p1 p2) (stI2x p1) ⟨store5x, 14, L⟩ =
      (.ok p2, stI3x p1 p2, ⟨store6x, 20, L ++ dec2evx⟩) := by
  simp [decode_message2, withClone, step, liftE, liftV, HandshakeState.getE,
        HandshakeState.getRe, HandshakeState.getRs, HandshakeState.getK, HandshakeState.getCk,
        HandshakeState.take_ck, HandshakeState.take_k, HandshakeState.mix_hash,
        msg2x_read_key, msg2x_read_enc_key, msg2x_read_payload,
        Vault.ec_diffie_hellman, Vault.import_ephemeral_secret,
        Vault.hkdf_sha256, Vault.logEv, Vault.delete_secret, Vault.find,
        List.find?, List.filter,
        hkdfStep, hkdfFinish, hash_and_decrypt, aead_decrypt_found,
        dh1_comm, dh2_comm,
        ck_attributes, k_attributes, SHA256_SIZE_USIZE,
        stI2x, stI3x, store5x, store6x, dec2evx, c1x, c2x, hsh3, hsh4, hsh5,
        dh1x, dh2x, ck1x, kb1x, ck2x, kb2x, nonce0x,
        List.append_assoc]

theorem c3x_length (p1 p2 : List Nat) : (c3x p1 p2).length = 48 := by
  simp [c3x, List.length_append, show iStaticBytes.length = 32 from rfl]

theorem c4x_length (p1 p2 p3 : List Nat) : (c4x p1 p2 p3).length = p3.length + 16 := by
  simp [c4x, List.length_append]

theorem msg3x_length (p1 p2 p3 : List Nat) : (msg3x p1 p2 p3).length = p3.length + 64 := by
  simp [msg3x, List.length_append, c3x_length, c4x_length]
  omega

theorem msg3x_read_enc_key (p1 p2 p3 : List Nat) :
    read_message3_encrypted_key (msg3x p1 p2 p3) = .ok (c3x p1 p2) := by
  rw [read_message3_encrypted_key, read_start,
      if_neg (by rw [msg3x_length]; show ¬(p3.length + 64 < 48); omega)]
  rw [msg3x, List.take_left' (show (c3x p1 p2).length = encrypted_key_size by
        rw [c3x_length]; rfl)]

theorem msg3x_read_payload (p1 p2 p3 : List Nat) :
    read_message3_payload (msg3x p1 p2 p3) = .ok (c4x p1 p2 p3) := by
  rw [read_message3_payload, read_end,
      if_neg (by rw [msg3x_length]; show ¬(p3.length + 64 < 48); omega)]
  rw [msg3x, List.drop_left' (show (c3x p1 p2).length = encrypted_key_size by
        rw [c3x_length]; rfl)]

def enc3evx : List VEvent :=
  [.getPubEv 0, .aeadEncEv nonce1x, .importEv 20, .dhEv 20, .importEv 21, .importEv 22,
   .hkdfEv [21, 22], .delEv 20, .storeCkEv 21, .delEv 18, .storeKEv 22, .delEv 19,
   .aeadEncEv nonce0x]

theorem enc3_eq (p1 p2 p3 : List Nat) (L : List VEvent) :
    encode_message3 p3 (stI3x p1 p2) ⟨store6x, 20, L⟩ =
      (.ok (msg3x p1 p2 p3), stI4x p1 p2 p3, ⟨store7x, 23, L ++ enc3evx⟩) := by
  simp [encode_message3, withClone, step, liftE, liftV, HandshakeState.getE,
        HandshakeState.getRe, HandshakeState.getS, HandshakeState.getK, HandshakeState.getCk,
        HandshakeState.take_ck, HandshakeState.take_k, HandshakeState.mix_hash,
        Vault.get_public_key, Vault.ec_diffie_hellman, Vault.import_ephemeral_secret,
        Vault.hkdf_sha256, Vault.logEv, Vault.delete_secret, Vault.find,
        Vault.aead_aes_gcm_encrypt, List.find?, List.filter, modelPublicKey,
        hkdfStep, hkdfFinish, encrypt_and_hash,
        ck_attributes, k_attributes, SHA256_SIZE_USIZE,
        stI3x, stI4x, store6x, store7x, enc3evx, msg3x, c3x, c4x, hsh6, hsh7,
        dh3x, ck3x, kb3x, nonce0x, nonce1x,
        List.append_assoc]

def dec3evx : List VEvent :=
  [.aeadDecEv nonce1x, .importEv 23, .dhEv 23, .importEv 24, .importEv 25,
   .hkdfEv [24, 25], .delEv 23, .storeCkEv 24, .delEv 12, .storeKEv 25, .delEv 13,
   .aeadDecEv nonce0x]

theorem dec3_eq (p1 p2 p3 : List Nat) (L : List VEvent) :
    decode_message3 (msg3x p1 p2 p3) (stR3x p1 p2) ⟨store7x, 23, L⟩ =
      (.ok p3, stR4x p1 p2 p3, ⟨store8x, 26, L ++ dec3evx⟩) := by
  simp [decode_message3, withClone, step, liftE, liftV, HandshakeState.getE,
        HandshakeState.getRe, HandshakeState.getRs, HandshakeState.getK, HandshakeState.getCk,
        HandshakeState.take_ck, HandshakeState.take_k, HandshakeState.mix_hash,
        msg3x_read_enc_key, msg3x_read_payload,
        Vault.ec_diffie_hellman, Vault.import_ephemeral_secret,
        Vault.hkdf_sha256, Vault.logEv, Vault.delete_secret, Vault.find,
        List.find?, List.filter,
        hkdfStep, hkdfFinish, hash_and_decrypt, aead_decrypt_found,
        dh3_comm,
        ck_attributes, k_attributes, SHA256_SIZE_USIZE,
        stR3x, stR4x, store7x, store8x, dec3evx, c3x, c4x, hsh6, hsh7,
        dh3x, ck3x, kb3x, nonce0x, nonce1x,
        List.append_assoc]

/-- **C1.**  For the matched pair of engines (complementary key material, both
initialized over the shared vault), decoding each of the three handshake
messages on the receiving engine returns exactly the payload bytes the sending
engine encoded, for every payload including the empty one:
`decode_i(encode_i(p)) = p` for `i ∈ {1,2,3}`. -/
theorem c1_roundtrip_payloads (p1 p2 p3 : List Nat) :
    runHandshake p1 p2 p3 = .ok (p1, p2, p3) := by
  unfold runHandshake
  rw [stI1_eq, stR1_eq, v2_eq, enc1_eq]
  dsimp only
  rw [dec1_eq]
  dsimp only
  rw [enc2_eq]
  dsimp only
  rw [dec2_eq]
  dsimp only
  rw [enc3_eq]
  dsimp only
  rw [dec3_eq]

/-! ## Vault find/delete lemmas -/

theorem find?_filter_ne (l : List (Nat × StoredSecret)) (i : Nat) :
    (l.filter (fun p => p.1 != i)).find? (fun p => p.1 == i) = none := by
  induction l with
  | nil => rfl
  | cons a l ih =>
    rw [List.filter_cons]
    by_cases h : a.1 = i
    · simp [h, ih]
    · simp [h, ih, List.find?_cons]

theorem find?_filter_other (l : List (Nat × StoredSecret)) (i j : Nat) (h : j ≠ i) :
    (l.filter (fun p => p.1 != i)).find? (fun p => p.1 == j) =
      l.find? (fun p => p.1 == j) := by
  induction l with
  | nil => rfl
  | cons a l ih =>
    rw [List.filter_cons]
    have hij : (i == j) = false := beq_eq_false_iff_ne.mpr (Ne.symm h)
    by_cases ha : a.1 = i
    · have hj : ¬ a.1 = j := by rw [ha]; exact fun e => h e.symm
      simp [ha, hj, ih, hij, List.find?_cons]
    · by_cases hjj : a.1 = j
      · simp [ha, hjj, h, List.find?_cons]
      · simp [ha, hjj, h, ih, List.find?_cons]

theorem find_delete_self (v : Vault) (i : Nat) : (v.delete_secret i).find i = none := by
  simp [Vault.delete_secret, Vault.find, find?_filter_ne]

theorem find_delete_other (v : Vault) (i j : Nat) (h : j ≠ i) :
    (v.delete_secret i).find j = v.find j := by
  simp [Vault.delete_secret, Vault.find, find?_filter_other _ _ _ h]

theorem find_import_other (v : Vault) (s : List Nat) (attrs : SecretAttributes) (j : Nat)
    (h : j ≠ v.nextId) : ((v.import_ephemeral_secret s attrs).2).find j = v.find j := by
  have hb : (v.nextId == j) = false := beq_eq_false_iff_ne.mpr (Ne.symm h)
  simp [Vault.import_ephemeral_secret, Vault.find, List.find?, hb]

theorem find_logEv (v : Vault) (ev : VEvent) (j : Nat) : (v.logEv ev).find j = v.find j := rfl

@[simp]
theorem import_fst (v : Vault) (s : List Nat) (attrs : SecretAttributes) :
    (v.import_ephemeral_secret s attrs).1 = v.nextId := rfl

@[simp]
theorem import_nextId (v : Vault) (s : List Nat) (attrs : SecretAttributes) :
    (v.import_ephemeral_secret s attrs).2.nextId = v.nextId + 1 := rfl

@[simp]
theorem logEv_nextId (v : Vault) (ev : VEvent) : (v.logEv ev).nextId = v.nextId := rfl

@[simp]
theorem delete_nextId (v : Vault) (i : Nat) : (v.delete_secret i).nextId = v.nextId := rfl

@[simp]
theorem logEv_log (v : Vault) (ev : VEvent) : (v.logEv ev).log = v.log ++ [ev] := rfl

@[simp]
theorem delete_log (v : Vault) (i : Nat) : (v.delete_secret i).log = v.log ++ [.delEv i] := rfl

@[simp]
theorem import_log (v : Vault) (s : List Nat) (attrs : SecretAttributes) :
    (v.import_ephemeral_secret s attrs).2.log = v.log ++ [.importEv v.nextId] := rfl

/-! ## C2: the state after `initialize` -/

theorem sha256_protocol_name :
    sha256 protocol_name =
      [93, 247, 43, 103, 185, 101, 173, 209, 22, 143, 10, 108, 117, 109, 242, 28,
       32, 79, 126, 100, 252, 104, 43, 230, 163, 171, 75, 104, 44, 141, 182, 75] := by
  decide

/-- **C2.**  After `initialize` on a freshly constructed engine, for every
static key (and every vault): the call succeeds, `h` is exactly the 32-byte
digest `5df72b67…b64b` (SHA-256 of the zero-padded protocol label), the `ck`
secret stored in the vault is exactly the 32-byte padded label (as a Buffer
secret), the `k` secret is a zero-filled 32-byte AES-256 key, and `n = 0`. -/
theorem c2_initialize_state (sId eId : Nat) (v : Vault) :
    (initializeState (HandshakeState.new sId eId) v).1 = .ok () ∧
    (initializeState (HandshakeState.new sId eId) v).2.1.h =
      [93, 247, 43, 103, 185, 101, 173, 209, 22, 143, 10, 108, 117, 109, 242, 28,
       32, 79, 126, 100, 252, 104, 43, 230, 163, 171, 75, 104, 44, 141, 182, 75] ∧
    (initializeState (HandshakeState.new sId eId) v).2.1.n = 0 ∧
    (initializeState (HandshakeState.new sId eId) v).2.1.k = some v.nextId ∧
    (initializeState (HandshakeState.new sId eId) v).2.1.ck = some (v.nextId + 1) ∧
    (initializeState (HandshakeState.new sId eId) v).2.2.find (v.nextId + 1) =
      some ⟨.Buffer 32, protocol_name⟩ ∧
    (initializeState (HandshakeState.new sId eId) v).2.2.find v.nextId =
      some ⟨.Aes256, List.replicate 32 0⟩ := by
  have hb : (v.nextId + 1 == v.nextId) = false :=
    beq_eq_false_iff_ne.mpr (Nat.succ_ne_self _)
  refine ⟨rfl, ?_, rfl, rfl, rfl, ?_, ?_⟩
  · have h1 : (initializeState (HandshakeState.new sId eId) v).2.1.h = sha256 protocol_name := by
      simp [initializeState, import_k_secret, import_ck_secret, Vault.import_ephemeral_secret,
            HandshakeState.new]
    rw [h1]
    exact sha256_protocol_name
  · show Vault.find _ _ = _
    simp [initializeState, import_k_secret, import_ck_secret, Vault.import_ephemeral_secret,
          Vault.find, List.find?, ck_attributes, SHA256_SIZE_USIZE]
  · show Vault.find _ _ = _
    simp [initializeState, import_k_secret, import_ck_secret, Vault.import_ephemeral_secret,
          Vault.find, List.find?, k_attributes, AES256_SECRET_LENGTH_USIZE, hb]

/-! ## C9: HKDF output arity check -/

/-- **C9.**  If the vault's HKDF call returns fewer than two handles where two
were expected, both the rotation (`Handshake::hkdf`) and the finalization
(`Handshake::compute_final_keys`) fail with `InternalVaultError` right at the
destructuring step, leaving the handshake state and the vault exactly as they
were — the rotation does not proceed. -/
theorem c9_hkdf_arity (hkdf_output : List Nat) (st : HandshakeState) (v : Vault)
    (h : hkdf_output.length < 2) :
    hkdfFinish hkdf_output st v = (.error .InternalVaultError, st, v) ∧
    computeFinalKeysFinish hkdf_output st v = (.error .InternalVaultError, st, v) := by
  match hkdf_output with
  | [] => exact ⟨rfl, rfl⟩
  | [a] => exact ⟨rfl, rfl⟩
  | a :: b :: t =>
    rw [List.length_cons, List.length_cons] at h
    exact absurd h (by omega)

theorem c9_hkdf_arity_witness :
    hkdfFinish [] (HandshakeState.new 0 1) emptyVault =
      (.error .InternalVaultError, HandshakeState.new 0 1, emptyVault) ∧
    computeFinalKeysFinish [] (HandshakeState.new 0 1) emptyVault =
      (.error .InternalVaultError, HandshakeState.new 0 1, emptyVault) :=
  c9_hkdf_arity [] (HandshakeState.new 0 1) emptyVault (by decide)

/-! ## C10: errors leave the engine state untouched -/

theorem withClone_error {α : Type} (st0 : HandshakeState) (b : Step α) (err : HsError)
    (h : (withClone st0 b).1 = .error err) : (withClone st0 b).2.1 = st0 := by
  rcases b with ⟨r, st, v⟩
  cases r <;> simp [withClone] at h ⊢

/-- **C10.**  Every `encode_*`/`decode_*` operation works on a clone of the
handshake state and assigns it back only on success: whenever one of them
returns an error, the engine's observable state is exactly the state before
the call. -/
theorem c10_error_frame :
    (∀ (p : List Nat) (st : HandshakeState) (v : Vault) (err : HsError),
       (encode_message1 p st v).1 = .error err → (encode_message1 p st v).2.1 = st) ∧
    (∀ (m : List Nat) (st : HandshakeState) (v : Vault) (err : HsError),
       (decode_message1 m st v).1 = .error err → (decode_message1 m st v).2.1 = st) ∧
    (∀ (p : List Nat) (st : HandshakeState) (v : Vault) (err : HsError),
       (encode_message2 p st v).1 = .error err → (encode_message2 p st v).2.1 = st) ∧
    (∀ (m : List Nat) (st : HandshakeState) (v : Vault) (err : HsError),
       (decode_message2 m st v).1 = .error err → (decode_message2 m st v).2.1 = st) ∧
    (∀ (p : List Nat) (st : HandshakeState) (v : Vault) (err : HsError),
       (encode_message3 p st v).1 = .error err → (encode_message3 p st v).2.1 = st) ∧
    (∀ (m : List Nat) (st : HandshakeState) (v : Vault) (err : HsError),
       (decode_message3 m st v).1 = .error err → (decode_message3 m st v).2.1 = st) := by
  refine ⟨?_, ?_, ?_, ?_, ?_, ?_⟩ <;>
    intro x st v err h <;>
    first
      | exact withClone_error st _ err h

theorem c10_error_frame_witness :
    (encode_message1 [] ⟨none, none, none, none, none, 0, zeros32, none, .Initial⟩ emptyVault).1 =
      .error (.InvalidState .e) ∧
    (encode_message1 [] ⟨none, none, none, none, none, 0, zeros32, none, .Initial⟩ emptyVault).2.1 =
      ⟨none, none, none, none, none, 0, zeros32, none, .Initial⟩ := by
  refine ⟨by rfl, ?_⟩
  exact c10_error_frame.1 [] ⟨none, none, none, none, none, 0, zeros32, none, .Initial⟩
    emptyVault (.InvalidState .e) (by rfl)

/-! ## C3: nonce construction and counter discipline -/

/-- **C3.**  Every AEAD call uses the 12-byte nonce `4 zero bytes ‖ be_u64(n)`
built from the current counter alone (visible in the vault log), `n` is
incremented by exactly 1 after every successful AEAD call, and every HKDF
rotation resets `n` to 0 — so between resets the counter is strictly
increasing and determined by the sequence of operations. -/
theorem c3_nonce_discipline :
    (∀ (st : HandshakeState) (v : Vault) (p c : List Nat),
       (encrypt_and_hash p st v).1 = .ok c →
       (encrypt_and_hash p st v).2.2.log =
         v.log ++ [.aeadEncEv (List.replicate 4 0 ++ beU64 st.n)] ∧
       (encrypt_and_hash p st v).2.1.n = st.n + 1) ∧
    (∀ (st : HandshakeState) (v : Vault) (c q : List Nat),
       (hash_and_decrypt c st v).1 = .ok q →
       (hash_and_decrypt c st v).2.2.log =
         v.log ++ [.aeadDecEv (List.replicate 4 0 ++ beU64 st.n)] ∧
       (hash_and_decrypt c st v).2.1.n = st.n + 1) ∧
    (∀ (dh : Nat) (st : HandshakeState) (v : Vault),
       (hkdfStep dh st v).1 = .ok () → (hkdfStep dh st v).2.1.n = 0) := by
  refine ⟨?_, ?_, ?_⟩
  · intro st v p c h
    cases hk : st.k with
    | none => simp [encrypt_and_hash, step, liftE, HandshakeState.getK, hk] at h
    | some kId =>
      cases hf : v.find kId with
      | none =>
        simp [encrypt_and_hash, step, liftE, liftV, HandshakeState.getK, hk,
              Vault.aead_aes_gcm_encrypt, hf] at h
      | some sec =>
        simp [encrypt_and_hash, step, liftE, liftV, HandshakeState.getK, hk,
              Vault.aead_aes_gcm_encrypt, hf, Vault.logEv, HandshakeState.mix_hash]
  · intro st v c q h
    cases hk : st.k with
    | none => simp [hash_and_decrypt, step, liftE, HandshakeState.getK, hk] at h
    | some kId =>
      cases hf : v.find kId with
      | none =>
        simp [hash_and_decrypt, step, liftE, liftV, HandshakeState.getK, hk,
              Vault.aead_aes_gcm_decrypt, hf] at h
      | some sec =>
        by_cases hlen : c.length < 16
        · simp [hash_and_decrypt, step, liftE, liftV, HandshakeState.getK, hk,
                Vault.aead_aes_gcm_decrypt, hf, hlen] at h
        · by_cases htag : c.drop (c.length - 16) =
              mkTag sec.secret (0 :: 0 :: 0 :: 0 :: beU64 st.n) st.h
                (c.take (c.length - 16))
          · simp [hash_and_decrypt, step, liftE, liftV, HandshakeState.getK, hk,
                  Vault.aead_aes_gcm_decrypt, hf, hlen, htag, Vault.logEv,
                  HandshakeState.mix_hash]
          · simp [hash_and_decrypt, step, liftE, liftV, HandshakeState.getK, hk,
                  Vault.aead_aes_gcm_decrypt, hf, hlen, htag] at h
  · intro dh st v h
    cases hck : st.ck with
    | none => simp [hkdfStep, step, liftE, HandshakeState.getCk, hck] at h
    | some ckId =>
      cases hfc : v.find ckId with
      | none =>
        simp [hkdfStep, step, liftE, liftV, HandshakeState.getCk, hck,
              Vault.hkdf_sha256, hfc] at h
      | some salt =>
        cases hfd : v.find dh with
        | none =>
          simp [hkdfStep, step, liftE, liftV, HandshakeState.getCk, hck,
                Vault.hkdf_sha256, hfc, hfd] at h
        | some dhsec =>
          cases hk : st.k with
          | none =>
            simp [hkdfStep, hkdfFinish, step, liftE, liftV, HandshakeState.getCk, hck,
                  Vault.hkdf_sha256, hfc, hfd, Vault.import_ephemeral_secret,
                  Vault.logEv, Vault.delete_secret, HandshakeState.take_ck,
                  HandshakeState.take_k, hk] at h
          | some kId =>
            simp [hkdfStep, hkdfFinish, step, liftE, liftV, HandshakeState.getCk, hck,
                  Vault.hkdf_sha256, hfc, hfd, Vault.import_ephemeral_secret,
                  Vault.logEv, Vault.delete_secret, HandshakeState.take_ck,
                  HandshakeState.take_k, hk]

theorem c3_nonce_discipline_witness :
    (encrypt_and_hash [] stI1x ⟨store2x, 8, []⟩).1 =
      .ok (mkTag zeros32 (List.replicate 4 0 ++ beU64 0) hsh0 []) ∧
    (encrypt_and_hash [] stI1x ⟨store2x, 8, []⟩).2.2.log =
      [.aeadEncEv (List.replicate 4 0 ++ beU64 0)] ∧
    (encrypt_and_hash [] stI1x ⟨store2x, 8, []⟩).2.1.n = 0 + 1 := by
  have hok : (encrypt_and_hash [] stI1x ⟨store2x, 8, []⟩).1 =
      .ok (mkTag zeros32 (List.replicate 4 0 ++ beU64 0) hsh0 []) := by
    simp [encrypt_and_hash, step, liftE, liftV, HandshakeState.getK, stI1x,
          Vault.aead_aes_gcm_encrypt, Vault.find, List.find?, store2x, Vault.logEv,
          HandshakeState.mix_hash]
  have h := c3_nonce_discipline.1 stI1x ⟨store2x, 8, []⟩ []
    (mkTag zeros32 (List.replicate 4 0 ++ beU64 0) hsh0 []) hok
  exact ⟨hok, by simpa using h.1, by simpa using h.2⟩

/-! ## C4: truncated messages -/

/-- **C4.**  A `decode_*` called on a buffer shorter than its fixed-layout
prefix fails with `MessageLenMismatch`, does not panic (total functions), and
does not corrupt the handshake state: `decode_message1` on fewer than 32
bytes, `decode_message3` on fewer than 48 bytes and `decode_message2` on
fewer than 32 bytes fail before touching anything, for every engine state;
and `decode_message2` on a buffer of length 32–79 (long enough for the
ephemeral key, too short for the 80-byte prefix ending at the encrypted
static key) also fails with `MessageLenMismatch`, leaving the state exactly
as before (shown on the post-message-1 initiator engine). -/
theorem c4_truncated_decode :
    (∀ (st : HandshakeState) (v : Vault) (message : List Nat), message.length < 32 →
       decode_message1 message st v = (.error .MessageLenMismatch, st, v)) ∧
    (∀ (st : HandshakeState) (v : Vault) (message : List Nat), message.length < 48 →
       decode_message3 message st v = (.error .MessageLenMismatch, st, v)) ∧
    (∀ (st : HandshakeState) (v : Vault) (message : List Nat), message.length < 32 →
       decode_message2 message st v = (.error .MessageLenMismatch, st, v)) ∧
    (∀ (message : List Nat) (L : List VEvent), 32 ≤ message.length → message.length < 80 →
       (decode_message2 message (stI2x []) ⟨store5x, 14, L⟩).1 = .error .MessageLenMismatch ∧
       (decode_message2 message (stI2x []) ⟨store5x, 14, L⟩).2.1 = stI2x []) := by
  refine ⟨?_, ?_, ?_, ?_⟩
  · intro st v message h
    have h' : message.length < key_size := h
    simp [decode_message1, withClone, step, liftE, read_key, read_start, h']
  · intro st v message h
    have h' : message.length < encrypted_key_size := h
    simp [decode_message3, withClone, step, liftE, read_message3_encrypted_key,
          read_start, h']
  · intro st v message h
    have h' : message.length < key_size := h
    simp [decode_message2, withClone, step, liftE, read_key, read_start, h']
  · intro message L h32 h80
    have h32' : ¬ message.length < key_size := by
      show ¬ message.length < 32; omega
    have h80' : message.length < key_size + encrypted_key_size := by
      show message.length < 32 + 48; omega
    constructor <;>
    simp [decode_message2, withClone, step, liftE, liftV, read_key, read_start, h32', h80',
          read_message2_encrypted_key, read_middle,
          HandshakeState.getE, HandshakeState.getRe, HandshakeState.getRs,
          HandshakeState.getK, HandshakeState.getCk,
          HandshakeState.take_ck, HandshakeState.take_k, HandshakeState.mix_hash,
          Vault.ec_diffie_hellman, Vault.import_ephemeral_secret, Vault.hkdf_sha256,
          Vault.logEv, Vault.delete_secret, Vault.find, List.find?, List.filter,
          hkdfStep, hkdfFinish, stI2x,
          ck_attributes, k_attributes, SHA256_SIZE_USIZE, store5x]

theorem c4_truncated_decode_witness :
    decode_message1 (List.replicate 31 0) stR1x ⟨store2x, 8, []⟩ =
      (.error .MessageLenMismatch, stR1x, ⟨store2x, 8, []⟩) ∧
    decode_message3 (List.replicate 47 0) stR1x ⟨store2x, 8, []⟩ =
      (.error .MessageLenMismatch, stR1x, ⟨store2x, 8, []⟩) ∧
    decode_message2 (List.replicate 31 0) stR1x ⟨store2x, 8, []⟩ =
      (.error .MessageLenMismatch, stR1x, ⟨store2x, 8, []⟩) ∧
    (decode_message2 (List.replicate 79 0) (stI2x []) ⟨store5x, 14, []⟩).1 =
      .error .MessageLenMismatch ∧
    (decode_message2 (List.replicate 79 0) (stI2x []) ⟨store5x, 14, []⟩).2.1 = stI2x [] := by
  refine ⟨?_, ?_, ?_, ?_, ?_⟩
  · exact c4_truncated_decode.1 stR1x ⟨store2x, 8, []⟩ (List.replicate 31 0) (by decide)
  · exact c4_truncated_decode.2.1 stR1x ⟨store2x, 8, []⟩ (List.replicate 47 0) (by decide)
  · exact c4_truncated_decode.2.2.1 stR1x ⟨store2x, 8, []⟩ (List.replicate 31 0) (by decide)
  · exact (c4_truncated_decode.2.2.2 (List.replicate 79 0) [] (by decide) (by decide)).1
  · exact (c4_truncated_decode.2.2.2 (List.replicate 79 0) [] (by decide) (by decide)).2

/-! ## C5: finalization key assignment -/

def stI4c : HandshakeState := stI4x [] [] []

def stR4c : HandshakeState := stR4x [] [] []

/-- The initiator's finalize at the end of the concrete matched run (the log
accumulated so far is irrelevant to every vault operation, so it stays
universally quantified). -/
def finIx (L : List VEvent) : Step Unit := set_final_state .Initiator stI4c ⟨store8x, 26, L⟩

def finRx (L : List VEvent) : Step Unit := set_final_state .Responder stR4c (finIx L).2.2

/-- **C5.**  `set_final_state` derives `(k1, k2)` from the final `ck` via the
no-IKM HKDF of `compute_final_keys`; the initiator stores
`(encryption, decryption) = (k2, k1)`, the responder `(k1, k2)`, and the
status becomes `Ready` — and on the concrete matched run the initiator's
encryption key bytes equal the responder's decryption key bytes and vice
versa. -/
theorem c5_final_keys :
    (∀ (st : HandshakeState) (v : Vault) (k1 k2 : Nat) (st1 : HandshakeState) (v1 : Vault),
       compute_final_keys st v = (.ok (k1, k2), st1, v1) →
       (set_final_state .Initiator st v).2.1.status = .Ready ⟨k2, k1⟩ ∧
       (set_final_state .Responder st v).2.1.status = .Ready ⟨k1, k2⟩) ∧
    (∀ (L : List VEvent),
       (finIx L).1 = .ok () ∧
       (finRx L).1 = .ok () ∧
       get_handshake_keys (finIx L).2.1 = some ⟨27, 26⟩ ∧
       get_handshake_keys (finRx L).2.1 = some ⟨28, 29⟩ ∧
       ((finRx L).2.2.find 27).map StoredSecret.secret =
         ((finRx L).2.2.find 29).map StoredSecret.secret ∧
       ((finRx L).2.2.find 26).map StoredSecret.secret =
         ((finRx L).2.2.find 28).map StoredSecret.secret ∧
       ((finRx L).2.2.find 27).isSome = true) := by
  constructor
  · intro st v k1 k2 st1 v1 h
    constructor <;>
    · simp only [set_final_state, h]
      cases he : st1.e <;>
        simp [HandshakeState.take_e, he, Role.is_initiator]
  · intro L
    refine ⟨?_, ?_, ?_, ?_, ?_, ?_, ?_⟩ <;>
    simp [finIx, finRx, stI4c, stR4c, stI4x, stR4x, set_final_state, compute_final_keys,
          computeFinalKeysFinish, step, liftE, liftV, HandshakeState.getCk,
          HandshakeState.take_ck, HandshakeState.take_k, HandshakeState.take_e,
          Vault.hkdf_sha256, Vault.import_ephemeral_secret, Vault.logEv,
          Vault.delete_secret, Vault.find, List.find?, List.filter,
          get_handshake_keys, Role.is_initiator, k_attributes, store8x]

instance {e a : Type} [DecidableEq e] [DecidableEq a] : DecidableEq (Except e a) := fun x y =>
  match x, y with
  | .error u, .error w => decidable_of_iff (u = w) (by simp)
  | .error _, .ok _ => isFalse (by simp)
  | .ok _, .error _ => isFalse (by simp)
  | .ok u, .ok w => decidable_of_iff (u = w) (by simp)

theorem c5_final_keys_witness :
    (set_final_state .Initiator stI4c ⟨store8x, 26, []⟩).2.1.status = .Ready ⟨27, 26⟩ ∧
    (set_final_state .Responder stI4c ⟨store8x, 26, []⟩).2.1.status = .Ready ⟨26, 27⟩ := by
  have h1 : (compute_final_keys stI4c ⟨store8x, 26, []⟩).1 = .ok (26, 27) := by decide
  have hrun : compute_final_keys stI4c ⟨store8x, 26, []⟩ =
      (.ok (26, 27), (compute_final_keys stI4c ⟨store8x, 26, []⟩).2.1,
       (compute_final_keys stI4c ⟨store8x, 26, []⟩).2.2) := Prod.ext h1 rfl
  exact c5_final_keys.1 stI4c ⟨store8x, 26, []⟩ 26 27 _ _ hrun

/-! ## C6: what finalize deletes and what it keeps -/

/-- **C6.**  After a successful `set_final_state`, the ephemeral key `e`, the
pre-final `k` and the pre-final `ck` have been deleted from the vault, while
the injected static key `s` is untouched (the engine never deletes it).  The
freshness hypotheses (`< v.nextId`, pairwise distinct) hold for every handle
the vault has ever handed out. -/
theorem c6_finalize_deletes (st : HandshakeState) (v : Vault) (role : Role)
    (sid eid kid cid : Nat) (st' : HandshakeState) (v' : Vault)
    (hs : st.s = some sid) (he : st.e = some eid) (hk : st.k = some kid)
    (hck : st.ck = some cid)
    (hslt : sid < v.nextId) (helt : eid < v.nextId) (hklt : kid < v.nextId)
    (hcklt : cid < v.nextId)
    (hse : sid ≠ eid) (hsk : sid ≠ kid) (hsck : sid ≠ cid)
    (hek : eid ≠ kid) (heck : eid ≠ cid) (hkck : kid ≠ cid)
    (hrun : set_final_state role st v = (.ok (), st', v')) :
    v'.find eid = none ∧ v'.find kid = none ∧ v'.find cid = none ∧
    v'.find sid = v.find sid := by
  cases hfc : v.find cid with
  | none =>
    exfalso
    simp [set_final_state, compute_final_keys, step, liftE, liftV,
          HandshakeState.getCk, hck, Vault.hkdf_sha256, hfc] at hrun
  | some salt =>
    have hv' :
        v' = ((((((v.import_ephemeral_secret
                  (modelHkdfOutput salt.secret [] [] 1) k_attributes).2.import_ephemeral_secret
                  (modelHkdfOutput salt.secret [] [] 2) k_attributes).2.logEv
                  (.hkdfEv [v.nextId, v.nextId + 1])).delete_secret
                  cid).delete_secret kid).delete_secret eid) := by
      have := hrun
      simp [set_final_state, compute_final_keys, computeFinalKeysFinish, step, liftE, liftV,
            HandshakeState.getCk, hck, Vault.hkdf_sha256, hfc,
            HandshakeState.take_ck, HandshakeState.take_k, HandshakeState.take_e,
            hk, he, Role.is_initiator, k_attributes] at this
      exact this.2.symm
    subst hv'
    refine ⟨?_, ?_, ?_, ?_⟩
    · exact find_delete_self _ _
    · rw [find_delete_other _ _ _ hek.symm]
      exact find_delete_self _ _
    · rw [find_delete_other _ _ _ heck.symm, find_delete_other _ _ _ hkck.symm]
      exact find_delete_self _ _
    · rw [find_delete_other _ _ _ hse, find_delete_other _ _ _ hsk,
          find_delete_other _ _ _ hsck, find_logEv,
          find_import_other _ _ _ _ (by simp; omega),
          find_import_other _ _ _ _ (by omega)]

theorem c6_finalize_deletes_witness :
    (finIx []).2.2.find 1 = none ∧ (finIx []).2.2.find 22 = none ∧
    (finIx []).2.2.find 21 = none ∧
    (finIx []).2.2.find 0 = Vault.find ⟨store8x, 26, []⟩ 0 := by
  have h1 : (set_final_state .Initiator stI4c ⟨store8x, 26, []⟩).1 = .ok () := by decide
  have hrun : set_final_state .Initiator stI4c ⟨store8x, 26, []⟩ =
      (.ok (), (finIx []).2.1, (finIx []).2.2) := Prod.ext h1 rfl
  exact c6_finalize_deletes stI4c ⟨store8x, 26, []⟩ .Initiator 0 1 22 21
    (finIx []).2.1 (finIx []).2.2 rfl rfl rfl rfl
    (by decide) (by decide) (by decide) (by decide)
    (by decide) (by decide) (by decide) (by decide) (by decide) (by decide) hrun

/-! ## C7: ordering of store and delete inside an HKDF rotation -/

/-- A minimal engine state for observing one rotation: `k`, `ck` and a DH
output live in the vault under handles 1, 2, 3. -/
def c7state : HandshakeState :=
  ⟨some 0, some 0, some 1, none, none, 5, zeros32, some 2, .Initial⟩

def c7vault : Vault :=
  ⟨[(1, ⟨.Aes256, zeros32⟩), (2, ⟨.Buffer 32, protocol_name⟩),
    (3, ⟨.Buffer 32, zeros32⟩)], 4, []⟩

/-- **C7, counterexample.**  The claim says the vault delete of a superseded
handle happens *before* the replacement handle is stored into the state.  On a
concrete successful rotation the observation log shows the opposite order:
the store of the new `ck` handle (event `storeCkEv 4`) strictly precedes the
delete of the old one (`delEv 2`), and likewise for `k` (`storeKEv 5` before
`delEv 1`). -/
theorem c7_delete_order_counterexample :
    (hkdfStep 3 c7state c7vault).1 = .ok () ∧
    (VEvent.delEv 2) ∈ (hkdfStep 3 c7state c7vault).2.2.log ∧
    (VEvent.storeCkEv 4) ∈ (hkdfStep 3 c7state c7vault).2.2.log ∧
    List.indexOf (VEvent.storeCkEv 4) (hkdfStep 3 c7state c7vault).2.2.log <
      List.indexOf (VEvent.delEv 2) (hkdfStep 3 c7state c7vault).2.2.log ∧
    ¬ List.indexOf (VEvent.delEv 2) (hkdfStep 3 c7state c7vault).2.2.log <
        List.indexOf (VEvent.storeCkEv 4) (hkdfStep 3 c7state c7vault).2.2.log ∧
    List.indexOf (VEvent.storeKEv 5) (hkdfStep 3 c7state c7vault).2.2.log <
      List.indexOf (VEvent.delEv 1) (hkdfStep 3 c7state c7vault).2.2.log := by
  decide

/-- **C7, amended.**  In every HKDF rotation the driver first stores the
replacement handle into its state and then deletes the superseded handle from
the vault (store-then-delete, the reverse of the claimed order); the full
event order is `hkdf, delete dh, store ck, delete old ck, store k, delete old
k`, and by the end of the rotation the old `ck`, the old `k` and the DH
output have all been deleted, so no superseded handle survives the rotation
itself. -/
theorem c7_rotation_order (st : HandshakeState) (v : Vault) (dh old_ck old_k : Nat)
    (salt dhsec : StoredSecret)
    (hck : st.ck = some old_ck) (hk : st.k = some old_k)
    (hfc : v.find old_ck = some salt) (hfd : v.find dh = some dhsec)
    (hckk : old_ck ≠ old_k) (hcd : old_ck ≠ dh) (hkd : old_k ≠ dh) :
    (hkdfStep dh st v).1 = .ok () ∧
    (hkdfStep dh st v).2.1.ck = some v.nextId ∧
    (hkdfStep dh st v).2.1.k = some (v.nextId + 1) ∧
    (hkdfStep dh st v).2.2.log =
      v.log ++ [.importEv v.nextId, .importEv (v.nextId + 1),
                .hkdfEv [v.nextId, v.nextId + 1], .delEv dh,
                .storeCkEv v.nextId, .delEv old_ck,
                .storeKEv (v.nextId + 1), .delEv old_k] ∧
    (hkdfStep dh st v).2.2.find old_ck = none ∧
    (hkdfStep dh st v).2.2.find old_k = none ∧
    (hkdfStep dh st v).2.2.find dh = none := by
  have hrw : hkdfStep dh st v =
      (.ok (),
       ⟨st.s, st.e, some (v.nextId + 1), st.re, st.rs, 0, st.h, some v.nextId, st.status⟩,
       (((((((v.import_ephemeral_secret (modelHkdfOutput salt.secret dhsec.secret [] 1)
            ck_attributes).2.import_ephemeral_secret
            (modelHkdfOutput salt.secret dhsec.secret [] 2) k_attributes).2.logEv
            (.hkdfEv [v.nextId, v.nextId + 1])).delete_secret dh).logEv
            (.storeCkEv v.nextId)).delete_secret old_ck).logEv
            (.storeKEv (v.nextId + 1))).delete_secret old_k) := by
    simp [hkdfStep, hkdfFinish, step, liftE, liftV, HandshakeState.getCk, hck,
          Vault.hkdf_sha256, hfc, hfd, HandshakeState.take_ck, HandshakeState.take_k, hk]
  refine ⟨by rw [hrw], by rw [hrw], by rw [hrw], ?_, ?_, ?_, ?_⟩
  · rw [hrw]
    simp [List.append_assoc]
  · rw [hrw, find_delete_other _ _ _ hckk, find_logEv, find_delete_self]
  · rw [hrw]
    exact find_delete_self _ _
  · rw [hrw, find_delete_other _ _ _ (Ne.symm hkd), find_logEv,
        find_delete_other _ _ _ (Ne.symm hcd), find_logEv]
    exact find_delete_self _ _

theorem c7_rotation_order_witness :
    (hkdfStep 3 c7state c7vault).2.1.ck = some 4 ∧
    (hkdfStep 3 c7state c7vault).2.1.k = some 5 ∧
    (hkdfStep 3 c7state c7vault).2.2.log =
      [.importEv 4, .importEv 5, .hkdfEv [4, 5], .delEv 3,
       .storeCkEv 4, .delEv 2, .storeKEv 5, .delEv 1] ∧
    (hkdfStep 3 c7state c7vault).2.2.find 2 = none ∧
    (hkdfStep 3 c7state c7vault).2.2.find 1 = none := by
  have h := c7_rotation_order c7state c7vault 3 2 1
    ⟨.Buffer 32, protocol_name⟩ ⟨.Buffer 32, zeros32⟩
    rfl rfl (by decide) (by decide) (by decide) (by decide) (by decide)
  exact ⟨h.2.1, h.2.2.1, h.2.2.2.1, h.2.2.2.2.1, h.2.2.2.2.2.1⟩

/-! ## C8: terminal failure (spec-modelled outer machine) -/

/-- Modelled from the spec: the outer initiator/responder session machines
that own the handshake driver are not part of the embedded source file; the
spec states that "any failure in the driver transitions the engine to a
terminal failed state" which rejects all further operations.  An operation
request against the driver. -/
inductive EngineOp
  | opEncode1 (payload : List Nat)
  | opDecode1 (message : List Nat)
  | opEncode2 (payload : List Nat)
  | opDecode2 (message : List Nat)
  | opEncode3 (payload : List Nat)
  | opDecode3 (message : List Nat)
  | opFinalize (role : Role)
deriving DecidableEq, Repr

/-- Modelled from the spec: the engine owned by the session machine — the
driver state, the vault, and the terminal `failed` flag. -/
structure Engine where
  st : HandshakeState
  v : Vault
  failed : Bool
deriving DecidableEq, Repr

def dispatch (op : EngineOp) (st : HandshakeState) (v : Vault) : Step (List Nat) :=
  match op with
  | .opEncode1 p => encode_message1 p st v
  | .opDecode1 m => decode_message1 m st v
  | .opEncode2 p => encode_message2 p st v
  | .opDecode2 m => decode_message2 m st v
  | .opEncode3 p => encode_message3 p st v
  | .opDecode3 m => decode_message3 m st v
  | .opFinalize role => step (set_final_state role st v) fun _ st v => (.ok [], st, v)

/-- Modelled from the spec: running one driver operation through the outer
machine.  A failed engine rejects every request; a driver error marks the
engine failed. -/
def Engine.run (en : Engine) (op : EngineOp) : Except HsError (List Nat) × Engine :=
  if en.failed then (.error .EngineTerminated, en)
  else
    match dispatch op en.st en.v with
    | (.ok r, st', v') => (.ok r, ⟨st', v', false⟩)
    | (.error err, st', v') => (.error err, ⟨st', v', true⟩)

/-- **C8.**  Any failure of a driver operation moves the engine to the
terminal failed state; a failed engine rejects every further operation
unchanged; hence after decoding a 31-byte message 1 the engine is unusable. -/
theorem c8_terminal_failure :
    (∀ (en : Engine) (op : EngineOp), en.failed = true →
       en.run op = (.error .EngineTerminated, en)) ∧
    (∀ (en : Engine) (op : EngineOp) (err : HsError),
       (en.run op).1 = .error err → ((en.run op).2).failed = true) ∧
    (∀ (en : Engine) (op op' : EngineOp) (err : HsError),
       (en.run op).1 = .error err →
       ((en.run op).2.run op').1 = .error .EngineTerminated) ∧
    ((Engine.run ⟨stR1x, ⟨store2x, 8, []⟩, false⟩ (.opDecode1 (List.replicate 31 0))).1 =
       .error .MessageLenMismatch ∧
     ((Engine.run ⟨stR1x, ⟨store2x, 8, []⟩, false⟩ (.opDecode1 (List.replicate 31 0))).2).failed =
       true) := by
  have h1 : ∀ (en : Engine) (op : EngineOp), en.failed = true →
      en.run op = (.error .EngineTerminated, en) := by
    intro en op h
    simp [Engine.run, h]
  have h2 : ∀ (en : Engine) (op : EngineOp) (err : HsError),
      (en.run op).1 = .error err → ((en.run op).2).failed = true := by
    intro en op err h
    by_cases hf : en.failed = true
    · rw [h1 en op hf]
      exact hf
    · rcases hd : dispatch op en.st en.v with ⟨r, st', v'⟩
      cases r with
      | ok a => simp [Engine.run, hf, hd] at h
      | error e => simp [Engine.run, hf, hd]
  refine ⟨h1, h2, ?_, ?_, ?_⟩
  · intro en op op' err h
    rw [h1 _ op' (h2 en op err h)]
  · decide
  · decide

theorem c8_terminal_failure_witness :
    Engine.run ⟨stR1x, ⟨store2x, 8, []⟩, true⟩ (.opEncode1 []) =
      (.error .EngineTerminated, ⟨stR1x, ⟨store2x, 8, []⟩, true⟩) :=
  c8_terminal_failure.1 ⟨stR1x, ⟨store2x, 8, []⟩, true⟩ (.opEncode1 []) rfl
